import Mathlib

/-!
Shallow embedding of `pkg/runtime/namespace/command.go` from the arana
repository: the namespace registry's command constructors (UpdateWeight,
RemoveNode, RemoveGroup, RemoveDB, UpsertDB, UpdateRule, UpdateParameters,
UpdateSlowThreshold, UpdateSlowLogger) acting on a `Namespace` holding a
copy-on-write topology snapshot `map[string][]proto.DB`.

Modelling choices:
- A Go slice `[]proto.DB` is a pair of an identity tag (`Nat`) and a list;
  a rebuilt slice receives a fresh tag drawn from `Namespace.nextTok`, while
  a slice carried over by reference keeps its tag.  Tag-inclusive equality of
  group entries therefore models reference identity of slice objects.
- The Go map is an association list with pairwise-distinct keys (Go map keys
  are unique); `topoFind` models map access.
- Side effects (atomic snapshot publication via `ns.dss.Store`, handle
  teardown via `Close`, delegation to `SetWeight`, log lines) are recorded in
  an event trace, in the order the Go statements execute them.
- A command returns the Go `error`; every return statement in the source
  returns `nil`, modelled as `none`.
-/

namespace Arana

/-- A datasource weight (`proto.Weight`), opaque to the registry. -/
abbrev Weight := Nat

/-- A datasource handle (`proto.DB`).  `tok` models the identity of the Go
interface value, `id` models `ID()`, and `setWeightErr` records whether the
handle's own `SetWeight` operation fails (and with which message) — the
registry only delegates to it. -/
structure DB where
  tok : Nat
  id : String
  setWeightErr : Option String
deriving DecidableEq, Repr

/-- One group's slice `[]proto.DB`: identity tag of the slice object plus its
elements.  A freshly rebuilt slice gets a fresh tag. -/
abbrev GroupSlice := Nat × List DB

/-- The topology snapshot `map[string][]proto.DB` as an association list. -/
abbrev Topology := List (String × GroupSlice)

/-- Go map access `dss[group]` (keys are unique in a Go map, so the first
match is the only match). -/
def topoFind (t : Topology) (g : String) : Option GroupSlice :=
  match t with
  | [] => none
  | e :: rest => if e.1 = g then some e.2 else topoFind rest g

/-- The rule snapshot (`*rule.Rule`): opaque, swapped wholesale; modelled as
an identity token. -/
abbrev Rule := Nat

/-- `config.ParametersMap`: a string-to-string mapping. -/
abbrev ParametersMap := List (String × String)

/-- Go map access on the parameters mapping. -/
def lookupParam (params : ParametersMap) (key : String) : Option String :=
  match params with
  | [] => none
  | e :: rest => if e.1 = key then some e.2 else lookupParam rest key

/-- The `Namespace` aggregate: current topology snapshot (`dss`), current
rule snapshot, parameters, slow threshold (a duration in nanoseconds), slow
logger handle (path and config token), and the allocator for fresh slice
identity tags. -/
structure Namespace where
  name : String
  dss : Topology
  rule : Rule
  parameters : ParametersMap
  slowThreshold : Int
  slowLog : Option (String × Nat)
  nextTok : Nat
deriving DecidableEq, Repr

/-- Observable side effects of one command execution, in program order:
snapshot publication (`ns.dss.Store`), handle teardown (`Close`), delegation
to `SetWeight`, and log lines. -/
inductive Event where
  | published (t : Topology)
  | closed (d : DB)
  | setWeightCalled (d : DB) (w : Weight)
  | logError (msg : String)
  | logInfo (msg : String)
deriving DecidableEq, Repr

/-- Result of applying one command: the new namespace state, the event trace,
and the returned Go `error` (`none` = `nil`). -/
structure CmdResult where
  ns : Namespace
  events : List Event
  err : Option String
deriving DecidableEq, Repr

/-- `Command = func(ns *Namespace) error`, with the state threaded
explicitly and side effects recorded in the trace. -/
abbrev Command := Namespace → CmdResult

/-- The handles torn down (`Close` calls) recorded in a trace. -/
def closedEvents (evs : List Event) : List DB :=
  evs.filterMap (fun e => match e with | Event.closed d => some d | _ => none)

/-- The topology snapshots published (`ns.dss.Store` calls) in a trace. -/
def publishedTopos (evs : List Event) : List Topology :=
  evs.filterMap (fun e => match e with | Event.published t => some t | _ => none)

/-- The forward scan with `break` in `UpdateWeight`: first handle whose
`ID()` equals `id`. -/
def findByID (l : List DB) (id : String) : Option DB :=
  match l with
  | [] => none
  | d :: rest => if d.id = id then some d else findByID rest id

/-- Handle lookup by group then id, as `UpdateWeight` performs it. -/
def findDB (t : Topology) (g id : String) : Option DB :=
  match topoFind t g with
  | some gs => findByID gs.2 id
  | none => none

/-- The filtering loop shared by `RemoveNode`, `RemoveDB` and `UpsertDB`:
walk the slice, skip every element whose `ID()` matches (the loop variable
`removed`/`expired` keeps the last match), append the rest in order.
Returns the rebuilt element list and the captured match. -/
def removeFromSlice (node : String) : List DB → List DB × Option DB
  | [] => ([], none)
  | d :: rest =>
    let p := removeFromSlice node rest
    if d.id = node then (p.1, some (p.2.getD d))
    else (d :: p.1, p.2)

/-- The map-rebuild loop of `RemoveNode`: every group other than the target
is carried over by reference; the target group's slice is rebuilt fresh
(tag `tok`) with the matching node filtered out. -/
def removeNodeTopo (group node : String) (tok : Nat) : Topology → Topology × Option DB
  | [] => ([], none)
  | e :: rest =>
    let p := removeNodeTopo group node tok rest
    if e.1 = group then
      let q := removeFromSlice node e.2.2
      ((e.1, (tok, q.1)) :: p.1, match q.2 with | some d => some d | none => p.2)
    else
      (e :: p.1, p.2)

/-- The map-rebuild loop of `RemoveGroup`: drop the target group's entry,
carry every other entry over by reference. -/
def removeGroupTopo (group : String) : Topology → Topology
  | [] => []
  | e :: rest =>
    if e.1 = group then removeGroupTopo group rest
    else e :: removeGroupTopo group rest

/-- The copy-then-overwrite idiom of `RemoveDB` and `UpsertDB`: copy every
entry by reference, then set the target group's entry to the rebuilt slice
(Go map assignment `newborn[group] = values`). -/
def setGroup (group : String) (v : GroupSlice) : Topology → Topology
  | [] => [(group, v)]
  | e :: rest =>
    if e.1 = group then (group, v) :: rest
    else e :: setGroup group v rest

/-- `UpdateWeight` from command.go lines 33 to 66: look the handle up by
group and id in the current snapshot; a missing handle or a failing
`SetWeight` is logged and absorbed; the snapshot is never rebuilt or
republished; every path returns `nil`. -/
def UpdateWeight (group id : String) (weight : Weight) : Command := fun ns =>
  let bingo : Option DB := findDB ns.dss group id
  match bingo with
  | none =>
    { ns := ns
      events := [Event.logError ("failed to update weight: no such datasource " ++ group ++ "." ++ id)]
      err := none }
  | some d =>
    match d.setWeightErr with
    | some e =>
      { ns := ns
        events := [Event.setWeightCalled d weight,
                   Event.logError ("failed to update weight of datasource " ++ group ++ "." ++ id ++ ": " ++ e)]
        err := none }
    | none =>
      { ns := ns
        events := [Event.setWeightCalled d weight,
                   Event.logInfo ("update weight of datasource " ++ group ++ "." ++ id ++ " successfully")]
        err := none }

/-- `RemoveNode` from command.go lines 69 to 107: rebuild the map, publish
the new snapshot, then — only after publication — call `Close` on the
removed handle if one was found; always return `nil`. -/
def RemoveNode (group node : String) : Command := fun ns =>
  let p := removeNodeTopo group node ns.nextTok ns.dss
  { ns := { ns with dss := p.1, nextTok := ns.nextTok + 1 }
    events := [Event.published p.1] ++
      (match p.2 with | some d => [Event.closed d] | none => []) ++
      [Event.logInfo ("remove node " ++ node ++ " from group " ++ group ++ " successfully")]
    err := none }

/-- `RemoveGroup` from command.go lines 110 to 134: rebuild the map without
the target group, publish, return `nil`; no teardown of any handle. -/
def RemoveGroup (group : String) : Command := fun ns =>
  let newborn := removeGroupTopo group ns.dss
  { ns := { ns with dss := newborn }
    events := [Event.published newborn,
               Event.logInfo ("remove group " ++ group ++ " successfully")]
    err := none }

/-- `RemoveDB` from command.go lines 137 to 176: filter the target group's
slice; if no handle matched (`expired == nil`), return `nil` without
publishing anything; otherwise copy the map, overwrite the group entry,
publish, return `nil`.  `Close` is never called (lazy-close TODO). -/
def RemoveDB (group id : String) : Command := fun ns =>
  match topoFind ns.dss group with
  | none => { ns := ns, events := [], err := none }
  | some gs =>
    let q := removeFromSlice id gs.2
    match q.2 with
    | none => { ns := ns, events := [], err := none }
    | some _ =>
      let newborn := setGroup group (ns.nextTok, q.1) ns.dss
      { ns := { ns with dss := newborn, nextTok := ns.nextTok + 1 }
        events := [Event.published newborn,
                   Event.logInfo ("remove datasource " ++ group ++ "." ++ id ++ " successfully")]
        err := none }

/-- `UpsertDB` from command.go lines 179 to 219: filter any handle with the
same id out of the group's slice (capturing it as `expired`, never closed,
only a todo log line), append the new handle at the end, copy the map,
overwrite the group entry, publish unconditionally, return `nil`. -/
def UpsertDB (group : String) (ds : DB) : Command := fun ns =>
  let q : List DB × Option DB :=
    match topoFind ns.dss group with
    | some gs => removeFromSlice ds.id gs.2
    | none => ([], none)
  let values := q.1 ++ [ds]
  let newborn := setGroup group (ns.nextTok, values) ns.dss
  { ns := { ns with dss := newborn, nextTok := ns.nextTok + 1 }
    events := (match q.2 with
               | some e => [Event.logInfo ("todo: expire DB " ++ e.id)]
               | none => []) ++
      [Event.published newborn,
       Event.logInfo ("upsert db " ++ group ++ "." ++ ds.id ++ " successfully")]
    err := none }

/-- `UpdateRule` from command.go lines 222 to 232: store the new rule
snapshot wholesale, return `nil`. -/
def UpdateRule (r : Rule) : Command := fun ns =>
  { ns := { ns with rule := r }
    events := [Event.logInfo "update rule successfully"]
    err := none }

/-- `UpdateParameters` from command.go lines 234 to 239: replace the
parameters mapping wholesale, return `nil`. -/
def UpdateParameters (parameters : ParametersMap) : Command := fun ns =>
  { ns := { ns with parameters := parameters }, events := [], err := none }

/-- Modelled from the spec: `constants.SlowThreshold` (the constants package
is not under src/) is the well-known parameters key identifying the
slow-query-threshold entry. -/
def slowThresholdKey : String := "slow_threshold"

/-- `UpdateSlowThreshold` from command.go lines 241 to 250: read the
well-known key from the current parameters; if present and it parses as a
duration, store it as the new threshold; on a missing key or a parse error,
keep the prior value; always return `nil`.  `time.ParseDuration` is Go
standard library, external to the repository, so it enters as a parameter. -/
def UpdateSlowThreshold (parseDuration : String → Option Int) : Command := fun ns =>
  match lookupParam ns.parameters slowThresholdKey with
  | some s =>
    match parseDuration s with
    | some d => { ns := { ns with slowThreshold := d }, events := [], err := none }
    | none => { ns := ns, events := [], err := none }
  | none => { ns := ns, events := [], err := none }

/-- `UpdateSlowLogger` from command.go lines 252 to 257: build a new slow
logger from path and config and store it, return `nil`. -/
def UpdateSlowLogger (path : String) (cfg : Nat) : Command := fun ns =>
  { ns := { ns with slowLog := some (path, cfg) }, events := [], err := none }

/-- Order-preserving removal of every handle with the given id; the rebuilt
slice of `removeFromSlice` equals this filter. -/
def dropID (id : String) : List DB → List DB
  | [] => []
  | d :: rest => if d.id = id then dropID id rest else d :: dropID id rest

/-- Number of handles in a slice carrying the given id. -/
def countID (id : String) : List DB → Nat
  | [] => 0
  | d :: rest => (if d.id = id then 1 else 0) + countID id rest

/-- Group entries with the slice identity tags erased: the content of a
topology snapshot (which groups exist, with which handle sequences). -/
def stripTokens (t : Topology) : List (String × List DB) :=
  t.map (fun e => (e.1, e.2.2))

/-- No handle with the given id occurs in any entry of group `g`. -/
def noHandle (t : Topology) (g id : String) : Prop :=
  ∀ e ∈ t, e.1 = g → ∀ d ∈ e.2.2, d.id ≠ id

instance (t : Topology) (g id : String) : Decidable (noHandle t g id) := by
  unfold noHandle; infer_instance

/-- Within every group of the topology, handle ids are pairwise distinct. -/
def groupIDsNodup (t : Topology) : Prop :=
  ∀ e ∈ t, (e.2.2.map DB.id).Nodup

instance (t : Topology) : Decidable (groupIDsNodup t) := by
  unfold groupIDsNodup; infer_instance

/-- The four topology mutation commands, as data, for reasoning about
arbitrary command sequences. -/
inductive TopoCmd where
  | upsert (g : String) (h : DB)
  | removeNode (g id : String)
  | removeDB (g id : String)
  | removeGroup (g : String)
deriving DecidableEq, Repr

/-- Apply one topology mutation command to the namespace state. -/
def applyTopoCmd : TopoCmd → Namespace → Namespace
  | TopoCmd.upsert g h, ns => (UpsertDB g h ns).ns
  | TopoCmd.removeNode g id, ns => (RemoveNode g id ns).ns
  | TopoCmd.removeDB g id, ns => (RemoveDB g id ns).ns
  | TopoCmd.removeGroup g, ns => (RemoveGroup g ns).ns

/-- Apply a finite sequence of topology mutation commands in order. -/
def applySeq : List TopoCmd → Namespace → Namespace
  | [], ns => ns
  | c :: cs, ns => applySeq cs (applyTopoCmd c ns)

/-- Whether a trace contains an error-level log line. -/
def hasLogError (evs : List Event) : Bool :=
  evs.any (fun e => match e with | Event.logError _ => true | _ => false)

/-- Sample handles and namespace used by the concrete witnesses. -/
def dbA : DB := { tok := 0, id := "a", setWeightErr := none }

def dbB : DB := { tok := 1, id := "b", setWeightErr := none }

def dbBad : DB := { tok := 2, id := "bad", setWeightErr := some "backend rejected weight" }

def dbA2 : DB := { tok := 7, id := "a", setWeightErr := none }

def ns0 : Namespace :=
  { name := "employees"
    dss := [("g1", (100, [dbA, dbB])), ("g2", (101, [dbBad]))]
    rule := 0
    parameters := [(slowThresholdKey, "5s")]
    slowThreshold := 0
    slowLog := none
    nextTok := 200 }

example : (UpsertDB "g1" dbA2 ns0).ns.dss =
    [("g1", (200, [dbB, dbA2])), ("g2", (101, [dbBad]))] := by decide

example : (RemoveNode "g1" "a" ns0).events =
    [Event.published [("g1", (200, [dbB])), ("g2", (101, [dbBad]))],
     Event.closed dbA,
     Event.logInfo "remove node a from group g1 successfully"] := by decide

example : (RemoveDB "g1" "zz" ns0).ns = ns0 := by decide

/-- A namespace with no slow-threshold parameter, for the C7 witness. -/
def nsNoKey : Namespace := { ns0 with parameters := [] }

/-- A sample duration parser accepting only the string 5s, for the C7
witness (5s = 5000000000 nanoseconds, as Go would parse it). -/
def parse5s : String → Option Int := fun s =>
  if s = "5s" then some 5000000000 else none

/-- A duration parser rejecting everything, for the C7 witness. -/
def parseNone : String → Option Int := fun _ => none

/-! ### Helper lemmas about the slice and map loops -/

theorem removeFromSlice_fst (id : String) (l : List DB) :
    (removeFromSlice id l).1 = dropID id l := by
  induction l with
  | nil => rfl
  | cons d rest ih =>
    simp only [removeFromSlice, dropID]
    split <;> simp [ih]

theorem removeFromSlice_of_absent (id : String) (l : List DB)
    (h : ∀ d ∈ l, d.id ≠ id) : removeFromSlice id l = (l, none) := by
  induction l with
  | nil => rfl
  | cons d rest ih =>
    have hd : d.id ≠ id := h d (List.mem_cons_self d rest)
    have ht : ∀ x ∈ rest, x.id ≠ id := fun x hx => h x (List.mem_cons_of_mem d hx)
    simp only [removeFromSlice, ih ht, if_neg hd]

theorem dropID_sublist (id : String) (l : List DB) : List.Sublist (dropID id l) l := by
  induction l with
  | nil => simp [dropID]
  | cons d rest ih =>
    simp only [dropID]
    split
    · exact ih.cons d
    · exact ih.cons₂ d

theorem mem_dropID_ne (id : String) (l : List DB) :
    ∀ d ∈ dropID id l, d.id ≠ id := by
  induction l with
  | nil => simp [dropID]
  | cons x rest ih =>
    simp only [dropID]
    split
    · exact ih
    · intro d hd
      rcases List.mem_cons.mp hd with h | h
      · subst h; assumption
      · exact ih d h

theorem countID_append (id : String) (l₁ l₂ : List DB) :
    countID id (l₁ ++ l₂) = countID id l₁ + countID id l₂ := by
  induction l₁ with
  | nil => simp [countID]
  | cons d rest ih =>
    have hc : (d :: rest) ++ l₂ = d :: (rest ++ l₂) := rfl
    rw [hc]
    show (if d.id = id then 1 else 0) + countID id (rest ++ l₂) =
      ((if d.id = id then 1 else 0) + countID id rest) + countID id l₂
    rw [ih, Nat.add_assoc]

theorem countID_dropID (id : String) (l : List DB) :
    countID id (dropID id l) = 0 := by
  induction l with
  | nil => rfl
  | cons d rest ih =>
    simp only [dropID]
    split
    · exact ih
    · simp [countID, *]

theorem topoFind_setGroup_self (g : String) (v : GroupSlice) (t : Topology) :
    topoFind (setGroup g v t) g = some v := by
  induction t with
  | nil => simp [setGroup, topoFind]
  | cons e rest ih =>
    simp only [setGroup]
    split
    · simp [topoFind]
    · simp [topoFind, *]

theorem topoFind_setGroup_ne (g b : String) (v : GroupSlice) (t : Topology)
    (h : b ≠ g) : topoFind (setGroup g v t) b = topoFind t b := by
  induction t with
  | nil =>
    have hg : g ≠ b := fun hc => h hc.symm
    simp [setGroup, topoFind, hg]
  | cons e rest ih =>
    simp only [setGroup]
    split
    · rename_i he
      simp [topoFind, he, h, Ne.symm h]
    · simp only [topoFind, ih]

theorem topoFind_removeNodeTopo_ne (g b node : String) (tok : Nat) (t : Topology)
    (h : b ≠ g) :
    topoFind (removeNodeTopo g node tok t).1 b = topoFind t b := by
  induction t with
  | nil => simp [removeNodeTopo]
  | cons e rest ih =>
    simp only [removeNodeTopo]
    split
    · rename_i he
      have : e.1 ≠ b := by rw [he]; exact fun hc => h hc.symm
      simp [topoFind, this, ih]
    · simp only [topoFind, ih]

theorem topoFind_removeGroupTopo_ne (g b : String) (t : Topology) (h : b ≠ g) :
    topoFind (removeGroupTopo g t) b = topoFind t b := by
  induction t with
  | nil => simp [removeGroupTopo]
  | cons e rest ih =>
    simp only [removeGroupTopo]
    split
    · rename_i he
      have : e.1 ≠ b := by rw [he]; exact fun hc => h hc.symm
      simp [topoFind, this, ih]
    · simp only [topoFind, ih]

theorem removeGroupTopo_of_absent (g : String) (t : Topology)
    (h : topoFind t g = none) : removeGroupTopo g t = t := by
  induction t with
  | nil => rfl
  | cons e rest ih =>
    simp only [topoFind] at h
    by_cases he : e.1 = g
    · simp [he] at h
    · simp only [removeGroupTopo, if_neg he]
      simp only [if_neg he] at h
      rw [ih h]

theorem setGroup_mem (g : String) (v : GroupSlice) (t : Topology) :
    ∀ e ∈ setGroup g v t, e ∈ t ∨ e.2 = v := by
  induction t with
  | nil => simp [setGroup]
  | cons x rest ih =>
    simp only [setGroup]
    split
    · intro e he
      rcases List.mem_cons.mp he with h | h
      · right; rw [h]
      · left; exact List.mem_cons_of_mem x h
    · intro e he
      rcases List.mem_cons.mp he with h | h
      · left; rw [h]; exact List.mem_cons_self x rest
      · rcases ih e h with h1 | h1
        · left; exact List.mem_cons_of_mem x h1
        · right; exact h1

theorem topoFind_mem (t : Topology) (g : String) (v : GroupSlice)
    (h : topoFind t g = some v) : (g, v) ∈ t := by
  induction t with
  | nil => simp [topoFind] at h
  | cons e rest ih =>
    simp only [topoFind] at h
    split at h
    · rename_i he
      have hv : e.2 = v := by injection h
      have he2 : e = (g, v) := by
        cases e
        simp_all
      rw [← he2]
      exact List.mem_cons_self e rest
    · exact List.mem_cons_of_mem e (ih h)

theorem dropID_of_absent (id : String) (l : List DB)
    (h : ∀ d ∈ l, d.id ≠ id) : dropID id l = l := by
  have := removeFromSlice_of_absent id l h
  rw [← removeFromSlice_fst, this]

/-- Closed form of the `RemoveNode` map-rebuild loop: every entry keyed by
the target group is rebuilt (fresh tag, node filtered out), every other
entry is carried over unchanged. -/
theorem removeNodeTopo_fst (g n : String) (tok : Nat) (t : Topology) :
    (removeNodeTopo g n tok t).1 =
      t.map (fun e => if e.1 = g then (e.1, (tok, dropID n e.2.2)) else e) := by
  induction t with
  | nil => rfl
  | cons e rest ih =>
    simp only [removeNodeTopo, List.map_cons]
    split
    · rename_i hg
      simp [hg, removeFromSlice_fst, ih]
    · rename_i hg
      simp [hg, ih]

theorem removeGroupTopo_subset (g : String) (t : Topology) :
    ∀ e ∈ removeGroupTopo g t, e ∈ t := by
  induction t with
  | nil => simp [removeGroupTopo]
  | cons x rest ih =>
    simp only [removeGroupTopo]
    split
    · intro e he; exact List.mem_cons_of_mem x (ih e he)
    · intro e he
      rcases List.mem_cons.mp he with h1 | h1
      · rw [h1]; exact List.mem_cons_self x rest
      · exact List.mem_cons_of_mem x (ih e h1)

theorem stripTokens_removeNodeTopo_of_absent (g n : String) (tok : Nat)
    (t : Topology) (h : noHandle t g n) :
    stripTokens (removeNodeTopo g n tok t).1 = stripTokens t := by
  rw [removeNodeTopo_fst]
  induction t with
  | nil => rfl
  | cons e rest ih =>
    have he := h e (List.mem_cons_self e rest)
    have ht : noHandle rest g n := fun x hx hg d hd => h x (List.mem_cons_of_mem e hx) hg d hd
    simp only [List.map_cons, stripTokens]
    by_cases hg : e.1 = g
    · rw [if_pos hg, dropID_of_absent n e.2.2 (he hg)]
      have := ih ht
      simp only [stripTokens] at this
      simp [this]
    · rw [if_neg hg]
      have := ih ht
      simp only [stripTokens] at this
      simp [this]

/-! ### Preservation of per-group id uniqueness -/

theorem nodup_dropID (id : String) (l : List DB) (h : (l.map DB.id).Nodup) :
    ((dropID id l).map DB.id).Nodup :=
  h.sublist ((dropID_sublist id l).map DB.id)

theorem nodup_upsert_values (ds : DB) (l : List DB) (h : (l.map DB.id).Nodup) :
    ((dropID ds.id l ++ [ds]).map DB.id).Nodup := by
  rw [List.map_append]
  refine List.Nodup.append (nodup_dropID ds.id l h) (by simp) ?_
  intro x hx hx2
  simp only [List.map_cons, List.map_nil, List.mem_singleton] at hx2
  rcases List.mem_map.mp hx with ⟨d, hd, hdx⟩
  exact mem_dropID_ne ds.id l d hd (hdx.trans hx2)

theorem groupIDsNodup_removeNode (g n : String) (tok : Nat) (t : Topology)
    (h : groupIDsNodup t) : groupIDsNodup (removeNodeTopo g n tok t).1 := by
  rw [removeNodeTopo_fst]
  intro e he
  rcases List.mem_map.mp he with ⟨x, hx, hfx⟩
  by_cases hg : x.1 = g
  · rw [if_pos hg] at hfx
    rw [← hfx]
    exact nodup_dropID n x.2.2 (h x hx)
  · rw [if_neg hg] at hfx
    rw [← hfx]
    exact h x hx

theorem groupIDsNodup_removeGroup (g : String) (t : Topology)
    (h : groupIDsNodup t) : groupIDsNodup (removeGroupTopo g t) :=
  fun e he => h e (removeGroupTopo_subset g t e he)

theorem groupIDsNodup_setGroup (g : String) (v : GroupSlice) (t : Topology)
    (h : groupIDsNodup t) (hv : (v.2.map DB.id).Nodup) :
    groupIDsNodup (setGroup g v t) := by
  intro e he
  rcases setGroup_mem g v t e he with h1 | h1
  · exact h e h1
  · rw [h1]; exact hv

theorem groupIDsNodup_applyTopoCmd (c : TopoCmd) (ns : Namespace)
    (h : groupIDsNodup ns.dss) : groupIDsNodup (applyTopoCmd c ns).dss := by
  cases c with
  | upsert g ds =>
    show groupIDsNodup (UpsertDB g ds ns).ns.dss
    cases hf : topoFind ns.dss g with
    | none =>
      simp only [UpsertDB, hf]
      exact groupIDsNodup_setGroup _ _ _ h (by simp)
    | some gs =>
      simp only [UpsertDB, hf]
      refine groupIDsNodup_setGroup _ _ _ h ?_
      have hgs : (gs.2.map DB.id).Nodup := h (g, gs) (topoFind_mem _ _ _ hf)
      simpa [removeFromSlice_fst] using nodup_upsert_values ds gs.2 hgs
  | removeNode g id =>
    show groupIDsNodup (RemoveNode g id ns).ns.dss
    exact groupIDsNodup_removeNode g id ns.nextTok ns.dss h
  | removeDB g id =>
    show groupIDsNodup (RemoveDB g id ns).ns.dss
    cases hf : topoFind ns.dss g with
    | none => simpa [RemoveDB, hf] using h
    | some gs =>
      have hgs : (gs.2.map DB.id).Nodup := h (g, gs) (topoFind_mem _ _ _ hf)
      cases hq : (removeFromSlice id gs.2).2 with
      | none => simpa [RemoveDB, hf, hq] using h
      | some d =>
        simp only [RemoveDB, hf, hq]
        refine groupIDsNodup_setGroup _ _ _ h ?_
        simpa [removeFromSlice_fst] using nodup_dropID id gs.2 hgs
  | removeGroup g =>
    show groupIDsNodup (RemoveGroup g ns).ns.dss
    exact groupIDsNodup_removeGroup g ns.dss h

/-! ### The claims -/

/-- C1: every Command of the registry (UpdateWeight, RemoveNode, RemoveGroup,
RemoveDB, UpsertDB, UpdateRule, UpdateParameters, UpdateSlowThreshold,
UpdateSlowLogger), applied to any Namespace state with any arguments,
returns a trivial nil error; no internal failure path (absent group or id,
failing SetWeight, failing Close, unparseable configuration) is ever
surfaced to the caller. -/
theorem C1_commands_always_succeed :
    (∀ (ns : Namespace) (g id : String) (w : Weight), (UpdateWeight g id w ns).err = none) ∧
    (∀ (ns : Namespace) (g id : String), (RemoveNode g id ns).err = none) ∧
    (∀ (ns : Namespace) (g : String), (RemoveGroup g ns).err = none) ∧
    (∀ (ns : Namespace) (g id : String), (RemoveDB g id ns).err = none) ∧
    (∀ (ns : Namespace) (g : String) (d : DB), (UpsertDB g d ns).err = none) ∧
    (∀ (ns : Namespace) (r : Rule), (UpdateRule r ns).err = none) ∧
    (∀ (ns : Namespace) (p : ParametersMap), (UpdateParameters p ns).err = none) ∧
    (∀ (ns : Namespace) (parse : String → Option Int), (UpdateSlowThreshold parse ns).err = none) ∧
    (∀ (ns : Namespace) (path : String) (cfg : Nat), (UpdateSlowLogger path cfg ns).err = none) := by
  refine ⟨?_, fun ns g id => rfl, fun ns g => rfl, ?_, fun ns g d => rfl,
    fun ns r => rfl, fun ns p => rfl, ?_, fun ns path cfg => rfl⟩
  · intro ns g id w
    cases hb : findDB ns.dss g id with
    | none => simp [UpdateWeight, hb]
    | some d => cases he : d.setWeightErr <;> simp [UpdateWeight, hb, he]
  · intro ns g id
    cases hf : topoFind ns.dss g with
    | none => simp [RemoveDB, hf]
    | some gs => cases hq : (removeFromSlice id gs.2).2 <;> simp [RemoveDB, hf, hq]
  · intro ns parse
    cases hk : lookupParam ns.parameters slowThresholdKey with
    | none => simp [UpdateSlowThreshold, hk]
    | some s => cases hp : parse s <;> simp [UpdateSlowThreshold, hk, hp]

/-- C2: applying RemoveNode, RemoveDB or RemoveGroup when the named target
(handle id in group g, respectively group g itself) is absent leaves the
topology snapshot unchanged in content — same groups, same handle
sequences — and reports success. -/
theorem C2_idempotent_delete (ns : Namespace) (g id : String)
    (h : noHandle ns.dss g id) :
    stripTokens (RemoveNode g id ns).ns.dss = stripTokens ns.dss ∧
    (RemoveNode g id ns).err = none ∧
    (RemoveDB g id ns).ns = ns ∧
    (RemoveDB g id ns).err = none ∧
    (topoFind ns.dss g = none →
      (RemoveGroup g ns).ns.dss = ns.dss ∧ (RemoveGroup g ns).err = none) := by
  have hDB : RemoveDB g id ns = { ns := ns, events := [], err := none } := by
    cases hf : topoFind ns.dss g with
    | none => simp [RemoveDB, hf]
    | some gs =>
      have habs : ∀ d ∈ gs.2, d.id ≠ id :=
        fun d hd => h (g, gs) (topoFind_mem _ _ _ hf) rfl d hd
      simp [RemoveDB, hf, removeFromSlice_of_absent id gs.2 habs]
  refine ⟨?_, rfl, by rw [hDB], by rw [hDB], ?_⟩
  · exact stripTokens_removeNodeTopo_of_absent g id ns.nextTok ns.dss h
  · intro hg
    exact ⟨removeGroupTopo_of_absent g ns.dss hg, rfl⟩

/-- C2 witness: deleting from the absent group g9 of the sample namespace
is a successful no-op for all three removal commands. -/
theorem C2_witness :
    stripTokens (RemoveNode "g9" "zz" ns0).ns.dss = stripTokens ns0.dss ∧
    (RemoveNode "g9" "zz" ns0).err = none ∧
    (RemoveDB "g9" "zz" ns0).ns = ns0 ∧
    (RemoveDB "g9" "zz" ns0).err = none ∧
    (RemoveGroup "g9" ns0).ns.dss = ns0.dss ∧ (RemoveGroup "g9" ns0).err = none :=
  have h := C2_idempotent_delete ns0 "g9" "zz" (by decide)
  ⟨h.1, h.2.1, h.2.2.1, h.2.2.2.1, h.2.2.2.2 (by decide)⟩

/-- C3: UpsertDB on a group already containing a handle with the same id
reports success and rebuilds that group as the old sequence with every
same-id handle dropped (an order-preserving sub-selection of the old
sequence) and the new handle appended at the end; the result contains
exactly one handle with that id. -/
theorem C3_upsert_replaces (ns : Namespace) (g : String) (h : DB) (tk : Nat)
    (old : List DB) (hf : topoFind ns.dss g = some (tk, old))
    (_hh : ∃ d ∈ old, d.id = h.id) :
    (UpsertDB g h ns).err = none ∧
    topoFind (UpsertDB g h ns).ns.dss g = some (ns.nextTok, dropID h.id old ++ [h]) ∧
    countID h.id (dropID h.id old ++ [h]) = 1 ∧
    (∀ d ∈ dropID h.id old ++ [h], d.id = h.id → d = h) ∧
    List.Sublist (dropID h.id old) old := by
  refine ⟨rfl, ?_, ?_, ?_, dropID_sublist h.id old⟩
  · simp only [UpsertDB, hf, removeFromSlice_fst]
    exact topoFind_setGroup_self g _ ns.dss
  · rw [countID_append, countID_dropID]
    simp [countID]
  · intro d hd hid
    rcases List.mem_append.mp hd with h1 | h1
    · exact absurd hid (mem_dropID_ne h.id old d h1)
    · simpa using h1

/-- C3 witness: upserting the handle dbA2 (same id as dbA) into group g1 of
the sample namespace replaces dbA and appends dbA2 at the end. -/
theorem C3_witness :
    (UpsertDB "g1" dbA2 ns0).err = none ∧
    topoFind (UpsertDB "g1" dbA2 ns0).ns.dss "g1" =
      some (ns0.nextTok, dropID dbA2.id [dbA, dbB] ++ [dbA2]) ∧
    countID dbA2.id (dropID dbA2.id [dbA, dbB] ++ [dbA2]) = 1 ∧
    List.Sublist (dropID dbA2.id [dbA, dbB]) [dbA, dbB] :=
  have h := C3_upsert_replaces ns0 "g1" dbA2 100 [dbA, dbB] (by decide) (by decide)
  ⟨h.1, h.2.1, h.2.2.1, h.2.2.2.2⟩

/-- C4: per-group uniqueness of handle ids is an invariant: starting from a
topology in which every group has pairwise-distinct handle ids, any finite
sequence of UpsertDB, RemoveNode, RemoveDB and RemoveGroup commands
preserves that property. -/
theorem C4_ids_nodup_invariant (cmds : List TopoCmd) (ns : Namespace)
    (h : groupIDsNodup ns.dss) : groupIDsNodup (applySeq cmds ns).dss := by
  induction cmds generalizing ns with
  | nil => exact h
  | cons c cs ih => exact ih (applyTopoCmd c ns) (groupIDsNodup_applyTopoCmd c ns h)

/-- C4 witness: a concrete five-command sequence on the sample namespace
keeps all group id lists duplicate-free. -/
theorem C4_witness :
    groupIDsNodup
      (applySeq
        [TopoCmd.upsert "g1" dbA2, TopoCmd.removeNode "g1" "b",
         TopoCmd.removeDB "g2" "bad", TopoCmd.removeGroup "g1",
         TopoCmd.upsert "g3" dbB] ns0).dss :=
  C4_ids_nodup_invariant
    [TopoCmd.upsert "g1" dbA2, TopoCmd.removeNode "g1" "b",
     TopoCmd.removeDB "g2" "bad", TopoCmd.removeGroup "g1",
     TopoCmd.upsert "g3" dbB] ns0 (by decide)

/-- C5: teardown asymmetry of the removal commands: RemoveNode calls Close
exactly on the removed handle (once, when one was removed), and only after
the new topology snapshot has been published — the first event of its trace
is the publication of the very snapshot it installs; RemoveDB never calls
Close on any handle; UpsertDB never calls Close on the displaced handle it
drops from the group. -/
theorem C5_teardown_asymmetry (ns : Namespace) (g id : String) (h : DB) :
    closedEvents (RemoveNode g id ns).events =
      (removeNodeTopo g id ns.nextTok ns.dss).2.toList ∧
    (RemoveNode g id ns).events.head? =
      some (Event.published (RemoveNode g id ns).ns.dss) ∧
    closedEvents (RemoveDB g id ns).events = [] ∧
    closedEvents (UpsertDB g h ns).events = [] := by
  refine ⟨?_, rfl, ?_, ?_⟩
  · cases hp : (removeNodeTopo g id ns.nextTok ns.dss).2 with
    | none => simp [RemoveNode, hp, closedEvents]
    | some d => simp [RemoveNode, hp, closedEvents]
  · cases hf : topoFind ns.dss g with
    | none => simp [RemoveDB, hf, closedEvents]
    | some gs =>
      cases hq : (removeFromSlice id gs.2).2 with
      | none => simp [RemoveDB, hf, hq, closedEvents]
      | some d => simp [RemoveDB, hf, hq, closedEvents]
  · cases hf : topoFind ns.dss g with
    | none => simp [UpsertDB, hf, closedEvents]
    | some gs =>
      cases hq : (removeFromSlice h.id gs.2).2 with
      | none => simp [UpsertDB, hf, hq, closedEvents]
      | some d => simp [UpsertDB, hf, hq, closedEvents]

/-- C6: UpdateWeight reports success and never changes the namespace state
or publishes a snapshot; when the handle is missing, or found but its own
SetWeight fails, the failure is logged and absorbed. -/
theorem C6_update_weight_best_effort (ns : Namespace) (g id : String) (w : Weight) :
    (UpdateWeight g id w ns).err = none ∧
    (UpdateWeight g id w ns).ns = ns ∧
    publishedTopos (UpdateWeight g id w ns).events = [] ∧
    (findDB ns.dss g id = none →
      hasLogError (UpdateWeight g id w ns).events = true) ∧
    (∀ d, findDB ns.dss g id = some d → ∀ e, d.setWeightErr = some e →
      Event.setWeightCalled d w ∈ (UpdateWeight g id w ns).events ∧
      hasLogError (UpdateWeight g id w ns).events = true) := by
  refine ⟨?_, ?_, ?_, ?_, ?_⟩
  · cases hb : findDB ns.dss g id with
    | none => simp [UpdateWeight, hb]
    | some d => cases he : d.setWeightErr <;> simp [UpdateWeight, hb, he]
  · cases hb : findDB ns.dss g id with
    | none => simp [UpdateWeight, hb]
    | some d => cases he : d.setWeightErr <;> simp [UpdateWeight, hb, he]
  · cases hb : findDB ns.dss g id with
    | none => simp [UpdateWeight, hb, publishedTopos]
    | some d => cases he : d.setWeightErr <;> simp [UpdateWeight, hb, he, publishedTopos]
  · intro hb
    simp [UpdateWeight, hb, hasLogError]
  · intro d hb e he
    simp [UpdateWeight, hb, he, hasLogError]

/-- C6 witness: on the sample namespace, a weight update for a missing id
and one whose handle rejects SetWeight both succeed, change nothing, and
log an error. -/
theorem C6_witness :
    ((UpdateWeight "g1" "zz" 3 ns0).err = none ∧
     (UpdateWeight "g1" "zz" 3 ns0).ns = ns0 ∧
     hasLogError (UpdateWeight "g1" "zz" 3 ns0).events = true) ∧
    ((UpdateWeight "g2" "bad" 3 ns0).ns = ns0 ∧
     Event.setWeightCalled dbBad 3 ∈ (UpdateWeight "g2" "bad" 3 ns0).events ∧
     hasLogError (UpdateWeight "g2" "bad" 3 ns0).events = true) :=
  have h1 := C6_update_weight_best_effort ns0 "g1" "zz" 3
  have h2 := C6_update_weight_best_effort ns0 "g2" "bad" 3
  ⟨⟨h1.1, h1.2.1, h1.2.2.2.1 (by decide)⟩,
   ⟨h2.2.1, (h2.2.2.2.2 dbBad (by decide) "backend rejected weight" (by decide)).1,
    (h2.2.2.2.2 dbBad (by decide) "backend rejected weight" (by decide)).2⟩⟩

/-- C7: UpdateSlowThreshold reads the well-known slow-threshold key from the
current parameters; if present and parseable as a duration it becomes the
new slowThreshold (nothing else changes), otherwise the namespace is left
untouched; in every case the command reports success. -/
theorem C7_slow_threshold (parse : String → Option Int) (ns : Namespace) :
    (UpdateSlowThreshold parse ns).err = none ∧
    (∀ s d, lookupParam ns.parameters slowThresholdKey = some s → parse s = some d →
      (UpdateSlowThreshold parse ns).ns = { ns with slowThreshold := d }) ∧
    (lookupParam ns.parameters slowThresholdKey = none →
      (UpdateSlowThreshold parse ns).ns = ns) ∧
    (∀ s, lookupParam ns.parameters slowThresholdKey = some s → parse s = none →
      (UpdateSlowThreshold parse ns).ns = ns) := by
  refine ⟨?_, ?_, ?_, ?_⟩
  · cases hk : lookupParam ns.parameters slowThresholdKey with
    | none => simp [UpdateSlowThreshold, hk]
    | some s => cases hp : parse s <;> simp [UpdateSlowThreshold, hk, hp]
  · intro s d hk hp
    simp [UpdateSlowThreshold, hk, hp]
  · intro hk
    simp [UpdateSlowThreshold, hk]
  · intro s hk hp
    simp [UpdateSlowThreshold, hk, hp]

/-- C7 witness: with a parser accepting 5s the sample namespace picks up the
new threshold; with a missing key or a failing parser the state is
untouched; all three runs report success. -/
theorem C7_witness :
    (UpdateSlowThreshold parse5s ns0).err = none ∧
    (UpdateSlowThreshold parse5s ns0).ns = { ns0 with slowThreshold := 5000000000 } ∧
    (UpdateSlowThreshold parse5s nsNoKey).ns = nsNoKey ∧
    (UpdateSlowThreshold parseNone ns0).ns = ns0 :=
  ⟨(C7_slow_threshold parse5s ns0).1,
   (C7_slow_threshold parse5s ns0).2.1 "5s" 5000000000 (by decide) (by decide),
   (C7_slow_threshold parse5s nsNoKey).2.2.1 (by decide),
   (C7_slow_threshold parseNone ns0).2.2.2 "5s" (by decide) rfl⟩

/-- C8: structural sharing across snapshot rebuilds: after any topology
mutation command targeting group a, every other group b maps in the new
snapshot to the very same slice object — the same identity tag, modelling
reference identity — as in the prior snapshot. -/
theorem C8_structural_sharing (ns : Namespace) (a b id : String) (h : DB)
    (hne : b ≠ a) :
    topoFind (UpsertDB a h ns).ns.dss b = topoFind ns.dss b ∧
    topoFind (RemoveNode a id ns).ns.dss b = topoFind ns.dss b ∧
    topoFind (RemoveDB a id ns).ns.dss b = topoFind ns.dss b ∧
    topoFind (RemoveGroup a ns).ns.dss b = topoFind ns.dss b := by
  refine ⟨?_, ?_, ?_, ?_⟩
  · cases hf : topoFind ns.dss a with
    | none =>
      simp only [UpsertDB, hf]
      exact topoFind_setGroup_ne a b _ ns.dss hne
    | some gs =>
      simp only [UpsertDB, hf]
      exact topoFind_setGroup_ne a b _ ns.dss hne
  · exact topoFind_removeNodeTopo_ne a b id ns.nextTok ns.dss hne
  · cases hf : topoFind ns.dss a with
    | none => simp [RemoveDB, hf]
    | some gs =>
      cases hq : (removeFromSlice id gs.2).2 with
      | none => simp [RemoveDB, hf, hq]
      | some d =>
        simp only [RemoveDB, hf, hq]
        exact topoFind_setGroup_ne a b _ ns.dss hne
  · exact topoFind_removeGroupTopo_ne a b ns.dss hne

/-- C8 witness: mutating group g1 of the sample namespace leaves group g2
mapped to the identical slice object under all four commands. -/
theorem C8_witness :
    topoFind (UpsertDB "g1" dbA2 ns0).ns.dss "g2" = topoFind ns0.dss "g2" ∧
    topoFind (RemoveNode "g1" "a" ns0).ns.dss "g2" = topoFind ns0.dss "g2" ∧
    topoFind (RemoveDB "g1" "a" ns0).ns.dss "g2" = topoFind ns0.dss "g2" ∧
    topoFind (RemoveGroup "g1" ns0).ns.dss "g2" = topoFind ns0.dss "g2" :=
  C8_structural_sharing ns0 "g1" "g2" "a" dbA2 (by decide)

/-- C10: UpsertDB on a group absent from the topology publishes a snapshot
in which that group exists and holds exactly the one-element sequence of
the new handle, every other group is carried over unchanged, and the
command reports success. -/
theorem C10_upsert_new_group (ns : Namespace) (g : String) (h : DB)
    (habs : topoFind ns.dss g = none) :
    (UpsertDB g h ns).err = none ∧
    topoFind (UpsertDB g h ns).ns.dss g = some (ns.nextTok, [h]) ∧
    (∀ b, b ≠ g → topoFind (UpsertDB g h ns).ns.dss b = topoFind ns.dss b) := by
  refine ⟨rfl, ?_, ?_⟩
  · simp only [UpsertDB, habs]
    exact topoFind_setGroup_self g _ ns.dss
  · intro b hb
    simp only [UpsertDB, habs]
    exact topoFind_setGroup_ne g b _ ns.dss hb

/-- C10 witness: upserting dbB into the absent group g3 of the sample
namespace creates g3 with exactly that handle and carries g1 over. -/
theorem C10_witness :
    (UpsertDB "g3" dbB ns0).err = none ∧
    topoFind (UpsertDB "g3" dbB ns0).ns.dss "g3" = some (ns0.nextTok, [dbB]) ∧
    topoFind (UpsertDB "g3" dbB ns0).ns.dss "g1" = topoFind ns0.dss "g1" :=
  have h := C10_upsert_new_group ns0 "g3" dbB (by decide)
  ⟨h.1, h.2.1, h.2.2 "g1" (by decide)⟩

end Arana
